import Mathlib

/-!
Verification development for the client-side entity-cache and event
normalization layer of the NAFF repository.  The Python modules under
`src/` are shallowly embedded as pure Lean functions: dictionaries become
association lists, the `MISSING` sentinel and Python `None` become explicit
constructors of a `Py` wrapper type, and the event processors become pure
state transformers that additionally emit a trace of cache operations,
suspension points and dispatched events.
-/

namespace Spec2Proof

/-! ## Association-list primitives (model of Python dict behaviour) -/

/-- Lookup in an association list keyed by numeric identifiers. -/
def lookupA {β : Type} : List (Nat × β) → Nat → Option β
  | [], _ => none
  | kv :: rest, i => if kv.1 = i then some kv.2 else lookupA rest i

/-- Insert-or-overwrite keyed by numeric identifiers; keeps the first
insertion position on overwrite, like a Python dict. -/
def putA {β : Type} : List (Nat × β) → Nat → β → List (Nat × β)
  | [], i, v => [(i, v)]
  | kv :: rest, i, v => if kv.1 = i then (i, v) :: rest else kv :: putA rest i v

/-- Remove a key, modelling Python `dict.pop(key, None)` / cache eviction:
afterwards the key does not resolve. -/
def removeA {β : Type} (l : List (Nat × β)) (i : Nat) : List (Nat × β) :=
  l.filter (fun kv => kv.1 != i)

/-- Lookup in an association list keyed by strings (payload fields). -/
def lookupS {β : Type} : List (String × β) → String → Option β
  | [], _ => none
  | kv :: rest, k => if kv.1 = k then some kv.2 else lookupS rest k

/-- Insert-or-overwrite keyed by strings. -/
def putS {β : Type} : List (String × β) → String → β → List (String × β)
  | [], k, v => [(k, v)]
  | kv :: rest, k, v => if kv.1 = k then (k, v) :: rest else kv :: putS rest k v

/-- Helper for `dedupFirst`: drops elements already seen. -/
def dedupFirstAux (seen : List Nat) : List Nat → List Nat
  | [] => []
  | x :: xs => if x ∈ seen then dedupFirstAux seen xs
               else x :: dedupFirstAux (x :: seen) xs

/-- Python dict keys after repeated insertion: first-occurrence order,
duplicates collapsed. -/
def dedupFirst (l : List Nat) : List Nat := dedupFirstAux [] l

theorem lookupA_putA {β : Type} (l : List (Nat × β)) (k i : Nat) (v : β) :
    lookupA (putA l k v) i = if k = i then some v else lookupA l i := by
  induction l with
  | nil => simp [putA, lookupA]
  | cons kv rest ih =>
    by_cases h1 : kv.1 = k
    · subst h1
      simp only [putA, if_pos rfl, lookupA]
      by_cases h2 : kv.1 = i
      · simp [h2]
      · simp [h2]
    · simp only [putA, if_neg h1, lookupA, ih]
      by_cases h2 : kv.1 = i
      · subst h2
        have hk : ¬k = kv.1 := fun h => h1 h.symm
        simp [hk]
      · simp [h2]

theorem length_putA_fresh {β : Type} (l : List (Nat × β)) (k : Nat) (v : β)
    (h : lookupA l k = none) : (putA l k v).length = l.length + 1 := by
  induction l with
  | nil => simp [putA]
  | cons kv rest ih =>
    simp only [lookupA] at h
    by_cases h1 : kv.1 = k
    · simp [h1] at h
    · simp only [putA, if_neg h1, List.length_cons]
      rw [ih (by simpa [h1] using h)]

theorem dedupFirstAux_of_nodup (l : List Nat) :
    ∀ seen, l.Nodup → (∀ x ∈ l, x ∉ seen) → dedupFirstAux seen l = l := by
  induction l with
  | nil => intro seen _ _; rfl
  | cons x xs ih =>
    intro seen hnd hs
    rw [List.nodup_cons] at hnd
    have hrec := ih (x :: seen) hnd.2 (fun y hy hmem => by
      rcases List.mem_cons.mp hmem with h | h
      · exact hnd.1 (h ▸ hy)
      · exact hs y (List.mem_cons_of_mem x hy) h)
    show (if x ∈ seen then dedupFirstAux seen xs
          else x :: dedupFirstAux (x :: seen) xs) = x :: xs
    rw [if_neg (hs x (List.mem_cons_self x xs)), hrec]

theorem dedupFirst_of_nodup (l : List Nat) (h : l.Nodup) : dedupFirst l = l :=
  dedupFirstAux_of_nodup l [] h (by simp)

/-! ## C1: the dis_snek decomposer (`Guild.process_dict`)

Embedded payload objects carry their own identifier plus opaque
string-valued fields (`SubObj`).  The dis_snek cache is modelled as
per-kind association-list stores; members and roles are guild-scoped
(two-level).  `Guild.process_dict` itself is translated directly from
`src/dis_snek/models/discord_objects/guild.py`.
-/

structure SubObj where
  id : Nat
  fields : List (String × String)
deriving DecidableEq, Repr

/-- A raw nested guild payload as consumed by `Guild.process_dict`:
its own fields plus lists of embedded channel / thread / member / role
objects (`data.pop("channels", [])` etc.). -/
structure GuildRawPayload where
  id : Nat
  owner_id : Nat
  channels : List SubObj
  threads : List SubObj
  members : List SubObj
  roles : List SubObj
deriving DecidableEq, Repr

/-- The normalized guild payload produced by `process_dict`: relation
fields hold identifier lists only. -/
structure NormalizedGuildPayload where
  id : Nat
  owner_id : Nat
  channel_ids : List Nat
  thread_ids : List Nat
  member_ids : List Nat
  role_ids : List Nat
deriving DecidableEq, Repr

/-- The dis_snek per-kind entity stores touched by `Guild.process_dict`.
Threads are placed through `place_channel_data`, so they live in the
channel store; members and roles are guild-scoped two-level stores. -/
structure SnekCache where
  channels : List (Nat × SubObj)
  members : List (Nat × List (Nat × SubObj))
  roles : List (Nat × List (Nat × SubObj))
deriving DecidableEq, Repr

/-- Record-overwrite merge: fields present in the new payload replace old
values, absent fields are preserved. -/
def mergeFields (old new2 : List (String × String)) : List (String × String) :=
  new2.foldl (fun acc kv => putS acc kv.1 kv.2) old

/-- Modelled from the spec: `client.cache.place_channel_data` (the dis_snek
cache module is not under src/).  Spec §4.1/§4.2: `put` merges the fields
into the existing record for the id, creating it if absent, and the placed
record is returned so the caller can read its `.id`. -/
def place_channel_data (c : SnekCache) (d : SubObj) : SnekCache × SubObj :=
  let stored : SubObj :=
    match lookupA c.channels d.id with
    | some old => ⟨d.id, mergeFields old.fields d.fields⟩
    | none => d
  ({ c with channels := putA c.channels d.id stored }, stored)

/-- Modelled from the spec: `client.cache.place_member_data` (dis_snek
cache module not under src/); members are guild-scoped, stored in a
two-level mapping guild id → member id → record. -/
def place_member_data (c : SnekCache) (gid : Nat) (d : SubObj) : SnekCache × SubObj :=
  let sub := (lookupA c.members gid).getD []
  let stored : SubObj :=
    match lookupA sub d.id with
    | some old => ⟨d.id, mergeFields old.fields d.fields⟩
    | none => d
  ({ c with members := putA c.members gid (putA sub d.id stored) }, stored)

/-- One guild-scoped role insertion (body of the loop inside
`place_role_data`). -/
def place_role_one (c : SnekCache) (gid : Nat) (d : SubObj) : SnekCache :=
  let sub := (lookupA c.roles gid).getD []
  let stored : SubObj :=
    match lookupA sub d.id with
    | some old => ⟨d.id, mergeFields old.fields d.fields⟩
    | none => d
  { c with roles := putA c.roles gid (putA sub d.id stored) }

def place_roles_list (c : SnekCache) (gid : Nat) : List SubObj → SnekCache
  | [] => c
  | d :: ds => place_roles_list (place_role_one c gid d) gid ds

/-- Modelled from the spec: `client.cache.place_role_data` (dis_snek cache
module not under src/).  It stores every role of the list guild-scoped and
returns a dict keyed by role id, whose keys (`.keys()` in
`Guild.process_dict`) are the role ids in first-occurrence order. -/
def place_role_data (c : SnekCache) (gid : Nat) (ds : List SubObj) :
    SnekCache × List Nat :=
  (place_roles_list c gid ds, dedupFirst (ds.map SubObj.id))

/-- Sequential placement of a list of channel-kind payloads, collecting the
placed records' ids — the list comprehension
`[client.cache.place_channel_data(cd).id for cd in channels_data]`. -/
def place_channels (c : SnekCache) : List SubObj → SnekCache × List Nat
  | [] => (c, [])
  | d :: ds =>
    let r := place_channel_data c d
    let rest := place_channels r.1 ds
    (rest.1, r.2.id :: rest.2)

/-- Sequential placement of member payloads, collecting ids. -/
def place_members (c : SnekCache) (gid : Nat) : List SubObj → SnekCache × List Nat
  | [] => (c, [])
  | d :: ds =>
    let r := place_member_data c gid d
    let rest := place_members r.1 gid ds
    (rest.1, r.2.id :: rest.2)

/-- `Guild.process_dict` from `src/dis_snek/models/discord_objects/guild.py`:
pops the embedded channel / thread / member / role lists, places each
embedded object into its kind's store, and rewrites the payload to hold
`channel_ids` / `thread_ids` / `member_ids` / `role_ids`. -/
def Guild.process_dict (c : SnekCache) (data : GuildRawPayload) :
    SnekCache × NormalizedGuildPayload :=
  let guild_id := data.id
  let rc := place_channels c data.channels
  let rt := place_channels rc.1 data.threads
  let rm := place_members rt.1 guild_id data.members
  let rr := place_role_data rm.1 guild_id data.roles
  (rr.1, ⟨data.id, data.owner_id, rc.2, rt.2, rm.2, rr.2⟩)

/-- Two-level lookup in a guild-scoped store. -/
def lookup2 (s : List (Nat × List (Nat × SubObj))) (gid i : Nat) : Option SubObj :=
  match lookupA s gid with
  | some sub => lookupA sub i
  | none => none

theorem place_channel_data_id (c : SnekCache) (d : SubObj) :
    (place_channel_data c d).2.id = d.id := by
  unfold place_channel_data
  cases h : lookupA c.channels d.id <;> simp [h]

theorem place_channel_data_lookup (c : SnekCache) (d : SubObj) (i : Nat) :
    lookupA (place_channel_data c d).1.channels i
      = if d.id = i then some (place_channel_data c d).2
        else lookupA c.channels i := by
  unfold place_channel_data
  cases h : lookupA c.channels d.id <;> simp [h, lookupA_putA]

theorem place_channel_data_members (c : SnekCache) (d : SubObj) :
    (place_channel_data c d).1.members = c.members := by
  unfold place_channel_data
  cases h : lookupA c.channels d.id <;> simp [h]

theorem place_channel_data_roles (c : SnekCache) (d : SubObj) :
    (place_channel_data c d).1.roles = c.roles := by
  unfold place_channel_data
  cases h : lookupA c.channels d.id <;> simp [h]

theorem place_channels_ids (ds : List SubObj) :
    ∀ c : SnekCache, (place_channels c ds).2 = ds.map SubObj.id := by
  induction ds with
  | nil => intro c; rfl
  | cons d ds ih =>
    intro c
    simp [place_channels, ih, place_channel_data_id]

theorem place_channels_mono (ds : List SubObj) :
    ∀ (c : SnekCache) (i : Nat), (lookupA c.channels i).isSome →
      (lookupA (place_channels c ds).1.channels i).isSome := by
  induction ds with
  | nil => intro c i h; exact h
  | cons d ds ih =>
    intro c i h
    refine ih _ i ?_
    rw [place_channel_data_lookup]
    by_cases hd : d.id = i
    · simp [hd]
    · simpa [hd] using h

theorem place_channels_mem (ds : List SubObj) :
    ∀ (c : SnekCache), ∀ d ∈ ds, (lookupA (place_channels c ds).1.channels d.id).isSome := by
  induction ds with
  | nil => intro c d hd; cases hd
  | cons d0 ds ih =>
    intro c d hd
    rcases List.mem_cons.mp hd with h | h
    · subst h
      exact place_channels_mono ds _ _ (by rw [place_channel_data_lookup]; simp)
    · exact ih _ d h

theorem place_channels_lookup_notin (ds : List SubObj) :
    ∀ (c : SnekCache) (i : Nat), i ∉ ds.map SubObj.id →
      lookupA (place_channels c ds).1.channels i = lookupA c.channels i := by
  induction ds with
  | nil => intro c i _; rfl
  | cons d ds ih =>
    intro c i hi
    simp only [List.map_cons, List.mem_cons] at hi
    push_neg at hi
    rw [show (place_channels c (d :: ds)).1 = (place_channels (place_channel_data c d).1 ds).1 from rfl]
    rw [ih _ i hi.2, place_channel_data_lookup, if_neg (Ne.symm hi.1)]

theorem place_channels_length (ds : List SubObj) :
    ∀ c : SnekCache, (∀ d ∈ ds, lookupA c.channels d.id = none) →
      (ds.map SubObj.id).Nodup →
      (place_channels c ds).1.channels.length = c.channels.length + ds.length := by
  induction ds with
  | nil => intro c _ _; rfl
  | cons d ds ih =>
    intro c hfresh hnd
    simp only [List.map_cons, List.nodup_cons] at hnd
    have hlen1 : (place_channel_data c d).1.channels.length = c.channels.length + 1 := by
      unfold place_channel_data
      rw [hfresh d (List.mem_cons_self d ds)]
      exact length_putA_fresh _ _ _ (hfresh d (List.mem_cons_self d ds))
    have hfresh' : ∀ e ∈ ds, lookupA (place_channel_data c d).1.channels e.id = none := by
      intro e he
      rw [place_channel_data_lookup]
      have : d.id ≠ e.id := fun h => hnd.1 (h ▸ List.mem_map_of_mem SubObj.id he)
      rw [if_neg this]
      exact hfresh e (List.mem_cons_of_mem d he)
    rw [show (place_channels c (d :: ds)).1 = (place_channels (place_channel_data c d).1 ds).1 from rfl]
    rw [ih _ hfresh' hnd.2, hlen1]
    simp only [List.length_cons]
    omega

theorem place_member_data_id (c : SnekCache) (g : Nat) (d : SubObj) :
    (place_member_data c g d).2.id = d.id := by
  unfold place_member_data
  cases h : lookupA ((lookupA c.members g).getD []) d.id <;> simp [h]

theorem place_member_data_channels (c : SnekCache) (g : Nat) (d : SubObj) :
    (place_member_data c g d).1.channels = c.channels := by
  unfold place_member_data
  cases h : lookupA ((lookupA c.members g).getD []) d.id <;> simp [h]

theorem place_member_data_roles (c : SnekCache) (g : Nat) (d : SubObj) :
    (place_member_data c g d).1.roles = c.roles := by
  unfold place_member_data
  cases h : lookupA ((lookupA c.members g).getD []) d.id <;> simp [h]

theorem place_member_data_lookup2 (c : SnekCache) (g : Nat) (d : SubObj) (i : Nat) :
    lookup2 (place_member_data c g d).1.members g i
      = if d.id = i then some (place_member_data c g d).2
        else lookup2 c.members g i := by
  unfold place_member_data lookup2
  cases h : lookupA c.members g <;>
    simp [h, lookupA_putA, lookupA]

theorem place_members_ids (ds : List SubObj) :
    ∀ (c : SnekCache) (g : Nat), (place_members c g ds).2 = ds.map SubObj.id := by
  induction ds with
  | nil => intro c g; rfl
  | cons d ds ih =>
    intro c g
    simp [place_members, ih, place_member_data_id]

theorem place_members_mono (ds : List SubObj) :
    ∀ (c : SnekCache) (g i : Nat), (lookup2 c.members g i).isSome →
      (lookup2 (place_members c g ds).1.members g i).isSome := by
  induction ds with
  | nil => intro c g i h; exact h
  | cons d ds ih =>
    intro c g i h
    refine ih _ g i ?_
    rw [place_member_data_lookup2]
    by_cases hd : d.id = i
    · simp [hd]
    · simpa [hd] using h

theorem place_members_mem (ds : List SubObj) :
    ∀ (c : SnekCache) (g : Nat), ∀ d ∈ ds,
      (lookup2 (place_members c g ds).1.members g d.id).isSome := by
  induction ds with
  | nil => intro c g d hd; cases hd
  | cons d0 ds ih =>
    intro c g d hd
    rcases List.mem_cons.mp hd with h | h
    · subst h
      exact place_members_mono ds _ g _ (by rw [place_member_data_lookup2]; simp)
    · exact ih _ g d h

theorem place_members_channels (ds : List SubObj) :
    ∀ (c : SnekCache) (g : Nat), (place_members c g ds).1.channels = c.channels := by
  induction ds with
  | nil => intro c g; rfl
  | cons d ds ih =>
    intro c g
    rw [show (place_members c g (d :: ds)).1 = (place_members (place_member_data c g d).1 g ds).1 from rfl]
    rw [ih, place_member_data_channels]

theorem place_members_roles (ds : List SubObj) :
    ∀ (c : SnekCache) (g : Nat), (place_members c g ds).1.roles = c.roles := by
  induction ds with
  | nil => intro c g; rfl
  | cons d ds ih =>
    intro c g
    rw [show (place_members c g (d :: ds)).1 = (place_members (place_member_data c g d).1 g ds).1 from rfl]
    rw [ih, place_member_data_roles]

theorem place_role_one_channels (c : SnekCache) (g : Nat) (d : SubObj) :
    (place_role_one c g d).channels = c.channels := by
  unfold place_role_one
  cases h : lookupA ((lookupA c.roles g).getD []) d.id <;> simp [h]

theorem place_role_one_members (c : SnekCache) (g : Nat) (d : SubObj) :
    (place_role_one c g d).members = c.members := by
  unfold place_role_one
  cases h : lookupA ((lookupA c.roles g).getD []) d.id <;> simp [h]

theorem place_role_one_lookup2 (c : SnekCache) (g : Nat) (d : SubObj) (i : Nat) :
    (lookup2 (place_role_one c g d).roles g i).isSome
      = (if d.id = i then true else (lookup2 c.roles g i).isSome) := by
  unfold place_role_one lookup2
  cases h : lookupA c.roles g <;>
    by_cases hd : d.id = i <;>
      simp [h, lookupA_putA, lookupA, hd]

theorem place_roles_list_channels (ds : List SubObj) :
    ∀ (c : SnekCache) (g : Nat), (place_roles_list c g ds).channels = c.channels := by
  induction ds with
  | nil => intro c g; rfl
  | cons d ds ih =>
    intro c g
    rw [show place_roles_list c g (d :: ds) = place_roles_list (place_role_one c g d) g ds from rfl]
    rw [ih, place_role_one_channels]

theorem place_roles_list_members (ds : List SubObj) :
    ∀ (c : SnekCache) (g : Nat), (place_roles_list c g ds).members = c.members := by
  induction ds with
  | nil => intro c g; rfl
  | cons d ds ih =>
    intro c g
    rw [show place_roles_list c g (d :: ds) = place_roles_list (place_role_one c g d) g ds from rfl]
    rw [ih, place_role_one_members]

theorem place_roles_list_mono (ds : List SubObj) :
    ∀ (c : SnekCache) (g i : Nat), (lookup2 c.roles g i).isSome →
      (lookup2 (place_roles_list c g ds).roles g i).isSome := by
  induction ds with
  | nil => intro c g i h; exact h
  | cons d ds ih =>
    intro c g i h
    refine ih _ g i ?_
    rw [place_role_one_lookup2]
    by_cases hd : d.id = i
    · simp [hd]
    · simpa [hd] using h

theorem place_roles_list_mem (ds : List SubObj) :
    ∀ (c : SnekCache) (g : Nat), ∀ d ∈ ds,
      (lookup2 (place_roles_list c g ds).roles g d.id).isSome := by
  induction ds with
  | nil => intro c g d hd; cases hd
  | cons d0 ds ih =>
    intro c g d hd
    rcases List.mem_cons.mp hd with h | h
    · subst h
      exact place_roles_list_mono ds _ g _ (by rw [place_role_one_lookup2]; simp)
    · exact ih _ g d h

/-- C1: `Guild.process_dict` extracts every embedded channel, thread, member
and role object of a guild payload, inserts each as its own record into that
kind's store, and replaces the relation fields of the normalized payload with
exactly the identifiers of the embedded objects in the order they appeared;
in particular the spec's example payload (guild 42, owner 7, one channel 100,
one role 200) yields a channel record 100, a role record 200, and a
normalized guild with `channel_ids = [100]` and `role_ids = [200]`. -/
theorem guild_process_dict_decomposes
    (c : SnekCache) (data : GuildRawPayload)
    (hfresh : ∀ d ∈ data.channels ++ data.threads, lookupA c.channels d.id = none)
    (hnodupCT : ((data.channels ++ data.threads).map SubObj.id).Nodup)
    (hnodupR : (data.roles.map SubObj.id).Nodup) :
    ((Guild.process_dict c data).2.channel_ids = data.channels.map SubObj.id
      ∧ (Guild.process_dict c data).2.thread_ids = data.threads.map SubObj.id
      ∧ (Guild.process_dict c data).2.member_ids = data.members.map SubObj.id
      ∧ (Guild.process_dict c data).2.role_ids = data.roles.map SubObj.id)
    ∧ (∀ d ∈ data.channels ++ data.threads,
        (lookupA (Guild.process_dict c data).1.channels d.id).isSome)
    ∧ (∀ d ∈ data.members,
        (lookup2 (Guild.process_dict c data).1.members data.id d.id).isSome)
    ∧ (∀ d ∈ data.roles,
        (lookup2 (Guild.process_dict c data).1.roles data.id d.id).isSome)
    ∧ (Guild.process_dict c data).1.channels.length
        = c.channels.length + data.channels.length + data.threads.length
    ∧ (lookupA (Guild.process_dict ⟨[], [], []⟩
          ⟨42, 7, [⟨100, [("type", "text")]⟩], [], [], [⟨200, [("name", "admin")]⟩]⟩).1.channels
          100 = some ⟨100, [("type", "text")]⟩
      ∧ lookup2 (Guild.process_dict ⟨[], [], []⟩
          ⟨42, 7, [⟨100, [("type", "text")]⟩], [], [], [⟨200, [("name", "admin")]⟩]⟩).1.roles
          42 200 = some ⟨200, [("name", "admin")]⟩
      ∧ (Guild.process_dict ⟨[], [], []⟩
          ⟨42, 7, [⟨100, [("type", "text")]⟩], [], [], [⟨200, [("name", "admin")]⟩]⟩).2
          = ⟨42, 7, [100], [], [], [200]⟩) := by
  have hCT := hnodupCT
  rw [List.map_append, List.nodup_append] at hCT
  obtain ⟨hnodC, hnodT, hdisj⟩ := hCT
  have hfreshC : ∀ d ∈ data.channels, lookupA c.channels d.id = none :=
    fun d hd => hfresh d (List.mem_append_left _ hd)
  have hfreshT : ∀ d ∈ data.threads,
      lookupA (place_channels c data.channels).1.channels d.id = none := by
    intro d hd
    rw [place_channels_lookup_notin data.channels c d.id
      (fun hmem => hdisj hmem (List.mem_map_of_mem SubObj.id hd))]
    exact hfresh d (List.mem_append_right _ hd)
  refine ⟨⟨?_, ?_, ?_, ?_⟩, ?_, ?_, ?_, ?_, ?_, ?_, ?_⟩
  · simp only [Guild.process_dict]
    exact place_channels_ids data.channels c
  · simp only [Guild.process_dict]
    exact place_channels_ids data.threads _
  · simp only [Guild.process_dict]
    exact place_members_ids data.members _ data.id
  · simp only [Guild.process_dict, place_role_data]
    exact dedupFirst_of_nodup _ hnodupR
  · intro d hd
    simp only [Guild.process_dict, place_role_data]
    rw [show ∀ cc : SnekCache, lookupA cc.channels d.id
          = lookupA cc.channels d.id from fun _ => rfl]
    rw [place_roles_list_channels]
    rw [show (place_members (place_channels (place_channels c data.channels).1 data.threads).1
          data.id data.members).1.channels
        = (place_channels (place_channels c data.channels).1 data.threads).1.channels from
        place_members_channels data.members _ data.id]
    rcases List.mem_append.mp hd with h | h
    · exact place_channels_mono data.threads _ d.id (place_channels_mem data.channels c d h)
    · exact place_channels_mem data.threads _ d h
  · intro d hd
    simp only [Guild.process_dict, place_role_data]
    rw [show (place_roles_list (place_members (place_channels (place_channels c
          data.channels).1 data.threads).1 data.id data.members).1 data.id data.roles).members
        = (place_members (place_channels (place_channels c data.channels).1 data.threads).1
          data.id data.members).1.members from place_roles_list_members data.roles _ data.id]
    exact place_members_mem data.members _ data.id d hd
  · intro d hd
    simp only [Guild.process_dict, place_role_data]
    exact place_roles_list_mem data.roles _ data.id d hd
  · simp only [Guild.process_dict, place_role_data]
    rw [place_roles_list_channels, place_members_channels]
    rw [place_channels_length data.threads _ hfreshT hnodT]
    rw [place_channels_length data.channels c hfreshC hnodC]
  · rfl
  · rfl
  · rfl

/-- Closed witness for C1 at the spec's example payload. -/
theorem guild_process_dict_decomposes_witness :
    (Guild.process_dict (⟨[], [], []⟩ : SnekCache)
        ⟨42, 7, [⟨100, [("type", "text")]⟩], [], [], [⟨200, [("name", "admin")]⟩]⟩).2
      = ⟨42, 7, [100], [], [], [200]⟩ :=
  ((guild_process_dict_decomposes ⟨[], [], []⟩
      ⟨42, 7, [⟨100, [("type", "text")]⟩], [], [], [⟨200, [("name", "admin")]⟩]⟩
      (by intro d hd; simp only [List.append_nil, List.mem_singleton] at hd; subst hd; rfl)
      (by simp) (by simp)).2.2.2.2.2).2.2

/-! ## The naff guild event processors
(`src/naff/api/events/processors/guild_events.py`)

Python values that may be a record, `None`, or the `MISSING` sentinel are
modelled by `Py`.  Each processor becomes a pure function from client state
and payload to the new client state plus a trace of actions (cache
operations, suspension points, dispatched events), so that ordering and
"no-await" claims are statements about the trace. -/

/-- A Python value that is either a real record, `None`, or the explicit
`MISSING` sentinel from `naff.client.const`. -/
inductive Py (α : Type) where
  | obj (a : α)
  | null
  | missing
deriving DecidableEq, Repr

/-- `x or MISSING` for `x` a record-or-None: records are truthy, `None` and
`MISSING` are falsy. -/
def pyOrMissing {α : Type} : Py α → Py α
  | .obj a => .obj a
  | .null => .missing
  | .missing => .missing

/-- `copy.copy` applied to a record-or-None: copying `None` yields `None`
(never `MISSING`). -/
def copyOpt {α : Type} : Option α → Py α
  | some a => .obj a
  | none => .null

/-- `cache.get_... or MISSING` applied directly to an optional lookup. -/
def pyOr {α : Type} (o : Option α) : Py α :=
  match o with
  | some a => .obj a
  | none => .missing

/-- The naff `Guild` record (fields relevant to the guild processors).
`chunked` models the `guild.chunked` latch that member chunking sets. -/
structure NGuild where
  id : Nat
  name : String
  unavailable : Bool
  chunked : Bool
deriving DecidableEq, Repr

structure NEmoji where
  id : Nat
  name : String
deriving DecidableEq, Repr

structure NUser where
  id : Nat
  username : String
deriving DecidableEq, Repr

structure NIntegration where
  guild_id : Option Nat
  id : Option Nat
  name : String
deriving DecidableEq, Repr

structure NSticker where
  id : Nat
  name : String
deriving DecidableEq, Repr

/-- A raw `GUILD_CREATE` / `GUILD_UPDATE` payload: the guild id plus the
optional fields the embedding tracks (absent fields are preserved by the
store's merge). -/
structure GuildPayload where
  id : Nat
  name : Option String
  unavailable : Option Bool
deriving DecidableEq, Repr

/-- A raw `GUILD_DELETE` payload; `unavailable` is
`event.data.get("unavailable", False)`. -/
structure GuildDeletePayload where
  id : Nat
  unavailable : Bool
deriving DecidableEq, Repr

structure UserPayload where
  id : Nat
  username : String
deriving DecidableEq, Repr

structure BanPayload where
  guild_id : Nat
  user : UserPayload
deriving DecidableEq, Repr

structure IntegrationPayload where
  guild_id : Option Nat
  id : Option Nat
  application_id : Option Nat
  name : String
deriving DecidableEq, Repr

structure EmojiPayload where
  id : Nat
  name : String
deriving DecidableEq, Repr

structure EmojisUpdatePayload where
  guild_id : Nat
  emojis : List EmojiPayload
deriving DecidableEq, Repr

structure StickerPayload where
  id : Nat
  name : String
deriving DecidableEq, Repr

structure StickersUpdatePayload where
  guild_id : Nat
  stickers : List StickerPayload
deriving DecidableEq, Repr

structure WebhookUpdatePayload where
  guild_id : Nat
  channel_id : Nat
deriving DecidableEq, Repr

/-- The client-side state the guild processors touch: the per-kind entity
stores, the client user's `_guild_ids` set, the `_guild_event` flag, and the
configuration flags (`fetch_members`, whether the emoji cache is enabled). -/
structure NaffState where
  guilds : List (Nat × NGuild)
  emojis : List (Nat × NEmoji)
  users : List (Nat × NUser)
  guildIds : List Nat
  emojiCacheEnabled : Bool
  fetchMembers : Bool
  guildEventSet : Bool
deriving DecidableEq, Repr

/-- Modelled from the spec: `cache.get_guild` (the naff cache module is not
under src/) — non-blocking lookup returning the record or absence. -/
def NaffState.get_guild (s : NaffState) (i : Nat) : Option NGuild :=
  lookupA s.guilds i

/-- Modelled from the spec: `cache.place_guild_data` (naff cache module not
under src/) — merges the payload's fields into the existing record for the
id, creating it if absent, and returns the stored record. -/
def NaffState.place_guild_data (s : NaffState) (p : GuildPayload) :
    NaffState × NGuild :=
  let g : NGuild :=
    match lookupA s.guilds p.id with
    | some old =>
      { old with name := p.name.getD old.name,
                 unavailable := p.unavailable.getD old.unavailable }
    | none =>
      { id := p.id, name := p.name.getD "",
        unavailable := p.unavailable.getD false, chunked := false }
  ({ s with guilds := putA s.guilds p.id g }, g)

/-- Modelled from the spec: `cache.delete_guild` (naff cache module not
under src/) — evicts the guild record. -/
def NaffState.delete_guild (s : NaffState) (i : Nat) : NaffState :=
  { s with guilds := removeA s.guilds i }

/-- Modelled from the spec: `cache.place_user_data` (naff cache module not
under src/). -/
def NaffState.place_user_data (s : NaffState) (p : UserPayload) :
    NaffState × NUser :=
  let u : NUser := ⟨p.id, p.username⟩
  ({ s with users := putA s.users p.id u }, u)

/-- Modelled from the spec: `cache.get_emoji` (naff cache module not under
src/) — non-blocking lookup by emoji id. -/
def NaffState.get_emoji (s : NaffState) (i : Nat) : Option NEmoji :=
  lookupA s.emojis i

/-- Modelled from the spec: `cache.place_emoji_data` (naff cache module not
under src/) — stores the emoji record and returns it. -/
def NaffState.place_emoji_data (s : NaffState) (_gid : Nat) (p : EmojiPayload) :
    NaffState × NEmoji :=
  let e : NEmoji := ⟨p.id, p.name⟩
  ({ s with emojis := putA s.emojis p.id e }, e)

/-- Modelled from the spec: `GuildIntegration.from_dict` (the integration
model class is not under src/) — builds a record from the payload. -/
def integrationFromDict (p : IntegrationPayload) : NIntegration :=
  ⟨p.guild_id, p.id, p.name⟩

/-- Modelled from the spec: `Sticker.from_list` (the sticker model class is
not under src/) — builds one record per payload entry. -/
def stickersFromList (ps : List StickerPayload) : List NSticker :=
  ps.map (fun p => ⟨p.id, p.name⟩)

/-- Normalized domain events dispatched by the guild processors. -/
inductive NEvent where
  | guildJoin (g : NGuild)
  | guildUpdate (before : Py NGuild) (after : NGuild)
  | guildUnavailable (id : Nat) (g : Py NGuild)
  | guildLeft (id : Nat) (g : Py NGuild)
  | banCreate (gid : Nat) (u : NUser)
  | banRemove (gid : Nat) (u : NUser)
  | integrationCreate (i : NIntegration)
  | integrationUpdate (i : NIntegration)
  | integrationDelete (gid : Option Nat) (iid : Option Nat) (appId : Option Nat)
  | guildEmojisUpdate (gid : Nat) (before : List (Py NEmoji)) (after : List NEmoji)
  | guildStickersUpdate (gid : Nat) (stickers : List NSticker)
  | webhooksUpdate (gid : Nat) (cid : Nat)
deriving DecidableEq, Repr

/-- One step of a processor invocation: a cache operation, a set-flag, an
asynchronous suspension (`await`), or a domain-event dispatch. -/
inductive Act where
  | placeGuild (id : Nat)
  | getGuild (id : Nat)
  | deleteGuild (id : Nat)
  | addGuildId (id : Nat)
  | removeGuildId (id : Nat)
  | setGuildEvent
  | awaitChunk (id : Nat)
  | placeUser (id : Nat)
  | getEmoji (id : Nat)
  | placeEmoji (gid : Nat) (id : Nat)
  | dispatch (e : NEvent)
deriving DecidableEq, Repr

/-- An action is a suspension point iff it awaits an asynchronous boundary. -/
def Act.isSuspension : Act → Bool
  | .awaitChunk _ => true
  | _ => false

def Act.isDispatch : Act → Bool
  | .dispatch _ => true
  | _ => false

/-- `GuildEvents._on_raw_guild_create`: place the guild, add its id to the
client user's guild-id set, set `_guild_event`, and — when `fetch_members`
is on and the guild is not yet chunked — await `guild.chunk()` before
dispatching `GuildJoin`.  Awaiting the chunk completes chunking, which sets
the cached guild's `chunked` latch. -/
def onRawGuildCreate (s : NaffState) (p : GuildPayload) : NaffState × List Act :=
  let r := s.place_guild_data p
  let ids := if p.id ∈ r.1.guildIds then r.1.guildIds else p.id :: r.1.guildIds
  let s2 : NaffState := { r.1 with guildIds := ids, guildEventSet := true }
  if s2.fetchMembers && !r.2.chunked then
    let g' : NGuild := { r.2 with chunked := true }
    let s3 : NaffState := { s2 with guilds := putA s2.guilds p.id g' }
    (s3, [.placeGuild p.id, .addGuildId p.id, .setGuildEvent,
          .awaitChunk p.id, .dispatch (.guildJoin g')])
  else
    (s2, [.placeGuild p.id, .addGuildId p.id, .setGuildEvent,
          .dispatch (.guildJoin r.2)])

/-- `GuildEvents._on_raw_guild_delete`: when the payload is flagged
unavailable, dispatch `GuildUnavailable` with the cached record or
`MISSING` and leave the cache untouched; otherwise remove the id from the
client user's guild-id set if present, read the record, evict it, and only
then dispatch `GuildLeft` with the last-known record or `MISSING`. -/
def onRawGuildDelete (s : NaffState) (p : GuildDeletePayload) :
    NaffState × List Act :=
  if p.unavailable then
    (s, [.getGuild p.id,
         .dispatch (.guildUnavailable p.id (pyOr (s.get_guild p.id)))])
  else
    let s1 : NaffState :=
      if p.id ∈ s.guildIds then { s with guildIds := s.guildIds.erase p.id } else s
    let g := s1.get_guild p.id
    let s2 := s1.delete_guild p.id
    ((if p.id ∈ s.guildIds then [Act.removeGuildId p.id] else []) ++
       [.getGuild p.id, .deleteGuild p.id,
        .dispatch (.guildLeft p.id (pyOr g))] |> fun tr => (s2, tr))

/-- `GuildEvents._on_raw_guild_ban_add`. -/
def onRawGuildBanAdd (s : NaffState) (p : BanPayload) : NaffState × List Act :=
  let r := s.place_user_data p.user
  (r.1, [.placeUser p.user.id, .dispatch (.banCreate p.guild_id r.2)])

/-- `GuildEvents._on_raw_guild_ban_remove`. -/
def onRawGuildBanRemove (s : NaffState) (p : BanPayload) : NaffState × List Act :=
  let r := s.place_user_data p.user
  (r.1, [.placeUser p.user.id, .dispatch (.banRemove p.guild_id r.2)])

/-- `GuildEvents._on_raw_integration_create`. -/
def onRawIntegrationCreate (s : NaffState) (p : IntegrationPayload) :
    NaffState × List Act :=
  (s, [.dispatch (.integrationCreate (integrationFromDict p))])

/-- `GuildEvents._on_raw_integration_update`. -/
def onRawIntegrationUpdate (s : NaffState) (p : IntegrationPayload) :
    NaffState × List Act :=
  (s, [.dispatch (.integrationUpdate (integrationFromDict p))])

/-- `GuildEvents._on_raw_integration_delete`. -/
def onRawIntegrationDelete (s : NaffState) (p : IntegrationPayload) :
    NaffState × List Act :=
  (s, [.dispatch (.integrationDelete p.guild_id p.id p.application_id)])

/-- Sequential `place_emoji_data` over the payload's emoji list, collecting
the stored records (the `after` list comprehension). -/
def placeEmojis (s : NaffState) (gid : Nat) :
    List EmojiPayload → NaffState × List NEmoji
  | [] => (s, [])
  | e :: es =>
    let r := s.place_emoji_data gid e
    let rest := placeEmojis r.1 gid es
    (rest.1, r.2 :: rest.2)

/-- `GuildEvents._on_raw_guild_emojis_update`: when the emoji cache is
enabled, `before` is `[copy.copy(cache.get_emoji(e["id"])) for e in emojis]`
— a cache miss contributes `copy.copy(None) = None`; otherwise `before` is
empty.  `after` re-places every emoji of the payload. -/
def onRawGuildEmojisUpdate (s : NaffState) (p : EmojisUpdatePayload) :
    NaffState × List Act :=
  let before : List (Py NEmoji) :=
    if s.emojiCacheEnabled then
      p.emojis.map (fun e => copyOpt (s.get_emoji e.id))
    else []
  let r := placeEmojis s p.guild_id p.emojis
  (r.1,
    (if s.emojiCacheEnabled then p.emojis.map (fun e => Act.getEmoji e.id) else [])
      ++ p.emojis.map (fun e => Act.placeEmoji p.guild_id e.id)
      ++ [.dispatch (.guildEmojisUpdate p.guild_id before r.2)])

/-- `GuildEvents._on_raw_guild_stickers_update`. -/
def onRawGuildStickersUpdate (s : NaffState) (p : StickersUpdatePayload) :
    NaffState × List Act :=
  (s, [.dispatch (.guildStickersUpdate p.guild_id (stickersFromList p.stickers))])

/-- `GuildEvents._on_raw_webhook_update`. -/
def onRawWebhookUpdate (s : NaffState) (p : WebhookUpdatePayload) :
    NaffState × List Act :=
  (s, [.dispatch (.webhooksUpdate p.guild_id p.channel_id)])

theorem lookupA_mem {β : Type} (l : List (Nat × β)) (k : Nat) (v : β)
    (h : lookupA l k = some v) : (k, v) ∈ l := by
  induction l with
  | nil => cases h
  | cons kv rest ih =>
    rw [lookupA] at h
    by_cases hk : kv.1 = k
    · rw [if_pos hk] at h
      injection h with hv
      subst hv
      subst hk
      simp
    · rw [if_neg hk] at h
      exact List.mem_cons_of_mem _ (ih h)

theorem lookupA_removeA {β : Type} (l : List (Nat × β)) (i : Nat) :
    lookupA (removeA l i) i = none := by
  induction l with
  | nil => rfl
  | cons kv rest ih =>
    rw [removeA, List.filter_cons]
    by_cases h : kv.1 = i
    · rw [show (kv.1 != i) = false by simp [h]]
      exact ih
    · rw [show (kv.1 != i) = true by simp [h]]
      rw [if_pos rfl, lookupA, if_neg h]
      exact ih

theorem placeEmojis_records (es : List EmojiPayload) :
    ∀ (s : NaffState) (g : Nat),
      (placeEmojis s g es).2 = es.map (fun e => (⟨e.id, e.name⟩ : NEmoji)) := by
  induction es with
  | nil => intro s g; rfl
  | cons e es ih =>
    intro s g
    simp [placeEmojis, ih, NaffState.place_emoji_data]

/-- The intermediate state of `_on_raw_guild_create` after placing the
guild, adding it to the client user's guild-id set and setting
`_guild_event`, before any chunking. -/
def guildCreateStateNoChunk (s : NaffState) (p : GuildPayload) : NaffState :=
  { (s.place_guild_data p).1 with
    guildIds := (if p.id ∈ (s.place_guild_data p).1.guildIds
                 then (s.place_guild_data p).1.guildIds
                 else p.id :: (s.place_guild_data p).1.guildIds),
    guildEventSet := true }

/-- The final state of `_on_raw_guild_create` when chunking ran: the cached
guild's `chunked` latch is set. -/
def guildCreateStateChunk (s : NaffState) (p : GuildPayload) : NaffState :=
  { guildCreateStateNoChunk s p with
    guilds := putA (guildCreateStateNoChunk s p).guilds p.id
      { (s.place_guild_data p).2 with chunked := true } }

theorem onRawGuildCreate_eq (s : NaffState) (p : GuildPayload) :
    onRawGuildCreate s p =
      if s.fetchMembers && !(s.place_guild_data p).2.chunked then
        (guildCreateStateChunk s p,
         [Act.placeGuild p.id, Act.addGuildId p.id, Act.setGuildEvent,
          Act.awaitChunk p.id,
          Act.dispatch (NEvent.guildJoin
            { (s.place_guild_data p).2 with chunked := true })])
      else
        (guildCreateStateNoChunk s p,
         [Act.placeGuild p.id, Act.addGuildId p.id, Act.setGuildEvent,
          Act.dispatch (NEvent.guildJoin (s.place_guild_data p).2)]) := rfl

theorem onRawGuildCreate_trace (s : NaffState) (p : GuildPayload) :
    (onRawGuildCreate s p).2 =
      if s.fetchMembers && !(s.place_guild_data p).2.chunked then
        [Act.placeGuild p.id, Act.addGuildId p.id, Act.setGuildEvent,
         Act.awaitChunk p.id,
         Act.dispatch (NEvent.guildJoin
           { (s.place_guild_data p).2 with chunked := true })]
      else
        [Act.placeGuild p.id, Act.addGuildId p.id, Act.setGuildEvent,
         Act.dispatch (NEvent.guildJoin (s.place_guild_data p).2)] := by
  rw [onRawGuildCreate_eq]
  by_cases hb : (s.fetchMembers && !(s.place_guild_data p).2.chunked) = true
  · rw [if_pos hb, if_pos hb]
  · rw [if_neg hb, if_neg hb]

/-- C4: on a guild create, when member fetching is enabled and the placed
guild is not yet chunked, the `GuildJoin` dispatch only occurs after the
chunking await in the processor's trace; when member fetching is disabled
or the guild is already chunked, the processor never suspends and the
`GuildJoin` event is dispatched directly. -/
theorem guild_create_join_awaits_chunk (s : NaffState) (p : GuildPayload) :
    (s.fetchMembers = true → (s.place_guild_data p).2.chunked = false →
      ∀ (j : Nat) (g : NGuild),
        ((onRawGuildCreate s p).2)[j]? = some (Act.dispatch (NEvent.guildJoin g)) →
        ∃ i, i < j ∧ ((onRawGuildCreate s p).2)[i]? = some (Act.awaitChunk p.id))
    ∧ ((s.fetchMembers = false ∨ (s.place_guild_data p).2.chunked = true) →
      (∀ a ∈ (onRawGuildCreate s p).2, a.isSuspension = false)
      ∧ Act.dispatch (NEvent.guildJoin (s.place_guild_data p).2)
          ∈ (onRawGuildCreate s p).2) := by
  constructor
  · intro hf hc j g hj
    have hcond : (s.fetchMembers && !(s.place_guild_data p).2.chunked) = true := by
      rw [hf, hc]
      rfl
    rw [onRawGuildCreate_trace, if_pos hcond] at hj
    rcases j with _ | _ | _ | _ | _ | j
    · exact absurd hj (by simp)
    · exact absurd hj (by simp)
    · exact absurd hj (by simp)
    · exact absurd hj (by simp)
    · exact ⟨3, by decide, by rw [onRawGuildCreate_trace, if_pos hcond]; rfl⟩
    · exact absurd hj (by simp)
  · intro hor
    have hcond : (s.fetchMembers && !(s.place_guild_data p).2.chunked) = false := by
      rcases hor with h | h <;> rw [h] <;> simp
    rw [onRawGuildCreate_trace, if_neg (by simp [hcond])]
    refine ⟨?_, ?_⟩
    · intro a ha
      simp only [List.mem_cons, List.not_mem_nil, or_false] at ha
      rcases ha with rfl | rfl | rfl | rfl <;> rfl
    · simp

/-- Closed witness for C4 at a concrete state with member fetching enabled
and an unchunked guild: the await precedes the join dispatch. -/
theorem guild_create_join_awaits_chunk_witness :
    ∃ i, i < 4 ∧
      ((onRawGuildCreate ⟨[], [], [], [], false, true, false⟩ ⟨1, some "g", none⟩).2)[i]?
        = some (Act.awaitChunk 1) :=
  (guild_create_join_awaits_chunk ⟨[], [], [], [], false, true, false⟩
    ⟨1, some "g", none⟩).1 rfl rfl 4
    ⟨1, "g", false, true⟩ (by rfl)

theorem onRawGuildDelete_removed_trace (s : NaffState) (p : GuildDeletePayload)
    (h : p.unavailable = false) :
    (onRawGuildDelete s p).2 =
      (if p.id ∈ s.guildIds then [Act.removeGuildId p.id] else []) ++
        [.getGuild p.id, .deleteGuild p.id,
         .dispatch (.guildLeft p.id (pyOr ((if p.id ∈ s.guildIds then
            { s with guildIds := s.guildIds.erase p.id } else s).get_guild p.id)))] := by
  unfold onRawGuildDelete
  rw [if_neg (by simp [h])]

/-- C3 (amended): a guild delete payload is handled by two disjoint cases on
its `unavailable` flag.  When `unavailable` is true the cache is left
completely untouched (the record is kept but not marked unavailable) and a
`GuildUnavailable` event carrying the cached record or `MISSING` is
dispatched.  When `unavailable` is false the record is evicted and the
eviction precedes the `GuildLeft` dispatch, which carries the last-known
record or `MISSING`. -/
theorem guild_delete_unavailable_vs_removed (s : NaffState) (p : GuildDeletePayload) :
    (p.unavailable = true →
      (onRawGuildDelete s p).1 = s
      ∧ (onRawGuildDelete s p).2 =
          [.getGuild p.id,
           .dispatch (.guildUnavailable p.id (pyOr (s.get_guild p.id)))])
    ∧ (p.unavailable = false →
      lookupA (onRawGuildDelete s p).1.guilds p.id = none
      ∧ ∃ (i j : Nat), i < j
          ∧ ((onRawGuildDelete s p).2)[i]? = some (Act.deleteGuild p.id)
          ∧ ((onRawGuildDelete s p).2)[j]?
              = some (Act.dispatch (NEvent.guildLeft p.id (pyOr (s.get_guild p.id))))) := by
  constructor
  · intro h
    unfold onRawGuildDelete
    rw [if_pos (by simp [h])]
    exact ⟨rfl, rfl⟩
  · intro h
    have hg : (if p.id ∈ s.guildIds then
        { s with guildIds := s.guildIds.erase p.id } else s).get_guild p.id
        = s.get_guild p.id := by
      by_cases hm : p.id ∈ s.guildIds
      · rw [if_pos hm]; rfl
      · rw [if_neg hm]
    constructor
    · unfold onRawGuildDelete
      rw [if_neg (by simp [h])]
      by_cases hm : p.id ∈ s.guildIds
      · rw [if_pos hm]
        exact lookupA_removeA _ _
      · rw [if_neg hm]
        exact lookupA_removeA _ _
    · rw [onRawGuildDelete_removed_trace s p h, hg]
      by_cases hm : p.id ∈ s.guildIds
      · rw [if_pos hm]
        exact ⟨2, 3, by decide, rfl, rfl⟩
      · rw [if_neg hm]
        exact ⟨1, 2, by decide, rfl, rfl⟩

/-- Closed witness for C3 in both delete cases at concrete states. -/
theorem guild_delete_unavailable_vs_removed_witness :
    ((onRawGuildDelete ⟨[(1, ⟨1, "g", false, false⟩)], [], [], [1], false, false, false⟩
        ⟨1, true⟩).1
      = ⟨[(1, ⟨1, "g", false, false⟩)], [], [], [1], false, false, false⟩)
    ∧ lookupA (onRawGuildDelete
        ⟨[(1, ⟨1, "g", false, false⟩)], [], [], [1], false, false, false⟩
        ⟨1, false⟩).1.guilds 1 = none :=
  ⟨((guild_delete_unavailable_vs_removed _ _).1 rfl).1,
   ((guild_delete_unavailable_vs_removed
      ⟨[(1, ⟨1, "g", false, false⟩)], [], [], [1], false, false, false⟩
      ⟨1, false⟩).2 rfl).1⟩

/-- C3 counterexample to the claim as stated: on an unavailable-kind delete
for a cached guild whose `unavailable` flag is false, the processor keeps
the record but does not mark it unavailable — the stored flag is still
false afterwards. -/
theorem guild_delete_not_marked_unavailable_cx :
    (lookupA (onRawGuildDelete
        ⟨[(1, ⟨1, "g", false, false⟩)], [], [], [1], false, false, false⟩
        ⟨1, true⟩).1.guilds 1).map NGuild.unavailable = some false := by
  rfl

/-- C9: a removed-kind guild delete whose id is neither in the client user's
guild-id set nor in the cache completes without error: the membership guard
skips the set removal (the set is unchanged and no removal action occurs),
the cache delete is still invoked, and a `GuildLeft` event carrying the id
and the `MISSING` sentinel is dispatched. -/
theorem guild_delete_unknown_guild_safe (s : NaffState) (p : GuildDeletePayload)
    (hu : p.unavailable = false) (hm : p.id ∉ s.guildIds)
    (hc : lookupA s.guilds p.id = none) :
    (onRawGuildDelete s p).2 =
      [.getGuild p.id, .deleteGuild p.id, .dispatch (.guildLeft p.id Py.missing)]
    ∧ (onRawGuildDelete s p).1.guildIds = s.guildIds := by
  constructor
  · rw [onRawGuildDelete_removed_trace s p hu, if_neg hm, if_neg hm]
    rw [show (s.get_guild p.id) = none from hc]
    rfl
  · unfold onRawGuildDelete
    rw [if_neg (by simp [hu]), if_neg hm]
    rfl

/-- Closed witness for C9 at a concrete empty state. -/
theorem guild_delete_unknown_guild_safe_witness :
    (onRawGuildDelete ⟨[], [], [], [], false, false, false⟩ ⟨5, false⟩).2 =
      [.getGuild 5, .deleteGuild 5, .dispatch (.guildLeft 5 Py.missing)] :=
  (guild_delete_unknown_guild_safe ⟨[], [], [], [], false, false, false⟩ ⟨5, false⟩
    rfl (by simp) rfl).1

/-- C5 (amended): the emoji-update processor dispatches a
`GuildEmojisUpdate` whose `before` list — when the emoji cache is enabled —
is the elementwise shallow copy of the cache lookups, in which a cache miss
contributes Python `None` (`Py.null`, not the `MISSING` sentinel); when the
cache is disabled the `before` list is empty; `after` is the list of
re-placed records, one per emoji of the payload. -/
theorem emojis_update_before_after (s : NaffState) (p : EmojisUpdatePayload) :
    (Act.dispatch (NEvent.guildEmojisUpdate p.guild_id
        (if s.emojiCacheEnabled then
          p.emojis.map (fun e => copyOpt (s.get_emoji e.id)) else [])
        (p.emojis.map (fun e => (⟨e.id, e.name⟩ : NEmoji))))
      ∈ (onRawGuildEmojisUpdate s p).2)
    ∧ (∀ e ∈ p.emojis, s.get_emoji e.id = none →
        copyOpt (s.get_emoji e.id) = Py.null ∧ copyOpt (s.get_emoji e.id) ≠ Py.missing)
    ∧ (s.emojiCacheEnabled = false →
        (if s.emojiCacheEnabled then
          p.emojis.map (fun e => copyOpt (s.get_emoji e.id)) else []) = []) := by
  refine ⟨?_, ?_, ?_⟩
  · have hrec := placeEmojis_records p.emojis s p.guild_id
    simp only [onRawGuildEmojisUpdate]
    rw [hrec]
    simp
  · intro e _ he
    rw [he]
    exact ⟨rfl, by decide⟩
  · intro h
    simp [h]

/-- Closed witness for C5: at a concrete state with the emoji cache enabled
and an uncached emoji, the miss contributes `None`, not `MISSING`. -/
theorem emojis_update_before_after_witness :
    copyOpt ((⟨[], [], [], [], true, false, false⟩ : NaffState).get_emoji 5) = Py.null
    ∧ copyOpt ((⟨[], [], [], [], true, false, false⟩ : NaffState).get_emoji 5)
        ≠ Py.missing :=
  (emojis_update_before_after ⟨[], [], [], [], true, false, false⟩
    ⟨9, [⟨5, "x"⟩]⟩).2.1 ⟨5, "x"⟩ (by simp) rfl

/-- C5 counterexample to the claim as stated: with the emoji cache enabled
and emoji 5 not cached, the dispatched event's `before` list is `[None]`
(`Py.null`), not the `MISSING` sentinel the claim requires. -/
theorem emojis_update_before_null_cx :
    Act.dispatch (NEvent.guildEmojisUpdate 9 [Py.null] [⟨5, "x"⟩])
      ∈ (onRawGuildEmojisUpdate ⟨[], [], [], [], true, false, false⟩
          ⟨9, [⟨5, "x"⟩]⟩).2
    ∧ (Py.null : Py NEmoji) ≠ Py.missing := by
  constructor
  · decide
  · decide

/-- C8: every sub-entity processor (ban add/remove, integration
create/update/delete, emoji update, sticker update, webhook update) emits a
trace free of suspension points — it never awaits the readiness gate or any
other asynchronous boundary — and dispatches its domain event within the
same invocation. -/
theorem subentity_processors_no_suspension :
    (∀ (s : NaffState) (p : BanPayload),
      (∀ a ∈ (onRawGuildBanAdd s p).2, a.isSuspension = false)
      ∧ ∃ e, Act.dispatch e ∈ (onRawGuildBanAdd s p).2)
    ∧ (∀ (s : NaffState) (p : BanPayload),
      (∀ a ∈ (onRawGuildBanRemove s p).2, a.isSuspension = false)
      ∧ ∃ e, Act.dispatch e ∈ (onRawGuildBanRemove s p).2)
    ∧ (∀ (s : NaffState) (p : IntegrationPayload),
      (∀ a ∈ (onRawIntegrationCreate s p).2, a.isSuspension = false)
      ∧ ∃ e, Act.dispatch e ∈ (onRawIntegrationCreate s p).2)
    ∧ (∀ (s : NaffState) (p : IntegrationPayload),
      (∀ a ∈ (onRawIntegrationUpdate s p).2, a.isSuspension = false)
      ∧ ∃ e, Act.dispatch e ∈ (onRawIntegrationUpdate s p).2)
    ∧ (∀ (s : NaffState) (p : IntegrationPayload),
      (∀ a ∈ (onRawIntegrationDelete s p).2, a.isSuspension = false)
      ∧ ∃ e, Act.dispatch e ∈ (onRawIntegrationDelete s p).2)
    ∧ (∀ (s : NaffState) (p : EmojisUpdatePayload),
      (∀ a ∈ (onRawGuildEmojisUpdate s p).2, a.isSuspension = false)
      ∧ ∃ e, Act.dispatch e ∈ (onRawGuildEmojisUpdate s p).2)
    ∧ (∀ (s : NaffState) (p : StickersUpdatePayload),
      (∀ a ∈ (onRawGuildStickersUpdate s p).2, a.isSuspension = false)
      ∧ ∃ e, Act.dispatch e ∈ (onRawGuildStickersUpdate s p).2)
    ∧ (∀ (s : NaffState) (p : WebhookUpdatePayload),
      (∀ a ∈ (onRawWebhookUpdate s p).2, a.isSuspension = false)
      ∧ ∃ e, Act.dispatch e ∈ (onRawWebhookUpdate s p).2) := by
  refine ⟨?_, ?_, ?_, ?_, ?_, ?_, ?_, ?_⟩
  · intro s p
    refine ⟨?_, ?_⟩
    · intro a ha
      simp only [onRawGuildBanAdd] at ha
      rcases List.mem_cons.mp ha with rfl | ha
      · rfl
      · rcases List.mem_singleton.mp ha with rfl
        rfl
    · exact ⟨NEvent.banCreate p.guild_id (s.place_user_data p.user).2,
        by simp [onRawGuildBanAdd]⟩
  · intro s p
    refine ⟨?_, ?_⟩
    · intro a ha
      simp only [onRawGuildBanRemove] at ha
      rcases List.mem_cons.mp ha with rfl | ha
      · rfl
      · rcases List.mem_singleton.mp ha with rfl
        rfl
    · exact ⟨NEvent.banRemove p.guild_id (s.place_user_data p.user).2,
        by simp [onRawGuildBanRemove]⟩
  · intro s p
    refine ⟨?_, ?_⟩
    · intro a ha
      rcases List.mem_singleton.mp ha with rfl
      rfl
    · exact ⟨NEvent.integrationCreate (integrationFromDict p),
        List.mem_singleton.mpr rfl⟩
  · intro s p
    refine ⟨?_, ?_⟩
    · intro a ha
      rcases List.mem_singleton.mp ha with rfl
      rfl
    · exact ⟨NEvent.integrationUpdate (integrationFromDict p),
        List.mem_singleton.mpr rfl⟩
  · intro s p
    refine ⟨?_, ?_⟩
    · intro a ha
      rcases List.mem_singleton.mp ha with rfl
      rfl
    · exact ⟨NEvent.integrationDelete p.guild_id p.id p.application_id,
        List.mem_singleton.mpr rfl⟩
  · intro s p
    refine ⟨?_, ?_⟩
    · intro a ha
      simp only [onRawGuildEmojisUpdate] at ha
      rcases List.mem_append.mp ha with h1 | h2
      · rcases List.mem_append.mp h1 with h3 | h4
        · by_cases hec : s.emojiCacheEnabled = true
          · rw [if_pos hec] at h3
            obtain ⟨e, _, rfl⟩ := List.mem_map.mp h3
            rfl
          · rw [if_neg hec] at h3
            cases h3
        · obtain ⟨e, _, rfl⟩ := List.mem_map.mp h4
          rfl
      · rcases List.mem_singleton.mp h2 with rfl
        rfl
    · exact ⟨NEvent.guildEmojisUpdate p.guild_id
        (if s.emojiCacheEnabled then
          p.emojis.map (fun e => copyOpt (s.get_emoji e.id)) else [])
        (placeEmojis s p.guild_id p.emojis).2,
        by simp [onRawGuildEmojisUpdate]⟩
  · intro s p
    refine ⟨?_, ?_⟩
    · intro a ha
      rcases List.mem_singleton.mp ha with rfl
      rfl
    · exact ⟨NEvent.guildStickersUpdate p.guild_id (stickersFromList p.stickers),
        List.mem_singleton.mpr rfl⟩
  · intro s p
    refine ⟨?_, ?_⟩
    · intro a ha
      rcases List.mem_singleton.mp ha with rfl
      rfl
    · exact ⟨NEvent.webhooksUpdate p.guild_id p.channel_id,
        List.mem_singleton.mpr rfl⟩

/-- Closed witness for C8: the webhook processor's dispatch action at a
concrete input is not a suspension point. -/
theorem subentity_processors_no_suspension_witness :
    (Act.dispatch (NEvent.webhooksUpdate 1 2)).isSuspension = false :=
  (subentity_processors_no_suspension.2.2.2.2.2.2.2
    ⟨[], [], [], [], false, false, false⟩ ⟨1, 2⟩).1
    (Act.dispatch (NEvent.webhooksUpdate 1 2))
    (by simp [onRawWebhookUpdate])

/-! ## C2: `GuildEvents._on_raw_guild_update` with object identity

Python objects live in a heap of addresses; the cache maps guild ids to
addresses and `place_guild_data` mutates the cached object in place, so
aliasing is observable.  `copy.copy` allocates a fresh address carrying the
same field values.  The update processor is translated from
`src/naff/api/events/processors/guild_events.py` lines 48-51. -/

/-- The field values of a naff `Guild` object (the part the update payload
touches). -/
structure GFields where
  id : Nat
  name : String
deriving DecidableEq, Repr

/-- Heap-based client state: `heap` maps object addresses to field values,
`byId` is the guild cache (guild id → address of the cached object), and
`origin` is the external origin service consulted by the fetch accessor. -/
structure HState where
  heap : List (Nat × GFields)
  nextAddr : Nat
  byId : List (Nat × Nat)
  origin : List (Nat × GFields)
deriving DecidableEq, Repr

/-- A raw `GUILD_UPDATE` payload in the heap model. -/
structure GUpd where
  id : Nat
  name : String
deriving DecidableEq, Repr

/-- Allocate a fresh object holding the given fields. -/
def allocH (s : HState) (f : GFields) : HState × Nat :=
  ({ s with heap := putA s.heap s.nextAddr f, nextAddr := s.nextAddr + 1 },
   s.nextAddr)

/-- Modelled from the spec: `cache.place_guild_data` (naff cache module not
under src/) — when a record for the id is cached the payload is merged into
the existing object in place (same address); otherwise a new object is
created and cached. -/
def place_guild_dataH (s : HState) (p : GUpd) : HState × Nat :=
  match lookupA s.byId p.id with
  | some a =>
    let f := (lookupA s.heap a).getD ⟨p.id, ""⟩
    ({ s with heap := putA s.heap a { f with name := p.name } }, a)
  | none =>
    let r := allocH s ⟨p.id, p.name⟩
    ({ r.1 with byId := putA r.1.byId p.id r.2 }, r.2)

/-- Modelled from the spec: `cache.fetch_guild` (naff cache module not under
src/), the asynchronous accessor of §4.3 — returns the cached object if
present, otherwise issues one fetch to the origin, stores the result and
returns it, and yields `None` only when the origin has nothing. -/
def fetch_guildH (s : HState) (i : Nat) : HState × Option Nat :=
  match lookupA s.byId i with
  | some a => (s, some a)
  | none =>
    match lookupA s.origin i with
    | some f =>
      let r := allocH s f
      ({ r.1 with byId := putA r.1.byId i r.2 }, some r.2)
    | none => (s, none)

/-- `copy.copy`: a shallow copy allocates a fresh object with the same
field values. -/
def copyH (s : HState) (a : Nat) : HState × Nat :=
  allocH s ((lookupA s.heap a).getD ⟨0, ""⟩)

/-- `GuildEvents._on_raw_guild_update`:
`before = copy.copy(await self.cache.fetch_guild(event.data.get("id")))`,
then `dispatch(GuildUpdate(before or MISSING, place_guild_data(event.data)))`.
The result's second component is the dispatched `(before, after)` pair —
object references, as in Python. -/
def onRawGuildUpdateH (s : HState) (p : GUpd) : HState × (Py Nat × Nat) :=
  let fr := fetch_guildH s p.id
  let br : HState × Py Nat :=
    match fr.2 with
    | some a =>
      let cr := copyH fr.1 a
      (cr.1, Py.obj cr.2)
    | none => (fr.1, Py.null)
  let pr := place_guild_dataH br.1 p
  (pr.1, (pyOrMissing br.2, pr.2))

/-- C2 (amended): the guild-update processor obtains `before` through the
asynchronous fetch accessor and snapshots it by shallow copy before the
store write.  If a record was cached, `before` is a fresh copy holding the
pre-update field values and never aliases the in-place-updated `after`
object, whose fields are the merged update.  If no record was cached but
the origin has one, the fetched record (freshly placed and then copied)
becomes `before` — still never aliasing `after`.  Only when neither the
cache nor the origin yields a record is `before` the `MISSING` sentinel —
never `None`. -/
theorem guild_update_snapshot_no_alias (s : HState) (p : GUpd)
    (hwf : ∀ kv ∈ s.byId, kv.2 < s.nextAddr) :
    (∀ a F, lookupA s.byId p.id = some a → lookupA s.heap a = some F →
      ∃ b, (onRawGuildUpdateH s p).2.1 = Py.obj b
        ∧ b ≠ (onRawGuildUpdateH s p).2.2
        ∧ (onRawGuildUpdateH s p).2.2 = a
        ∧ lookupA (onRawGuildUpdateH s p).1.heap b = some F
        ∧ lookupA (onRawGuildUpdateH s p).1.heap a = some { F with name := p.name })
    ∧ (lookupA s.byId p.id = none → lookupA s.origin p.id = none →
        (onRawGuildUpdateH s p).2.1 = Py.missing)
    ∧ (∀ F, lookupA s.byId p.id = none → lookupA s.origin p.id = some F →
        ∃ b, (onRawGuildUpdateH s p).2.1 = Py.obj b
          ∧ b ≠ (onRawGuildUpdateH s p).2.2
          ∧ lookupA (onRawGuildUpdateH s p).1.heap b = some F) := by
  refine ⟨?_, ?_, ?_⟩
  · intro a F ha hF
    have haddr : a < s.nextAddr := hwf (p.id, a) (lookupA_mem _ _ _ ha)
    have hane : a ≠ s.nextAddr := Nat.ne_of_lt haddr
    have hsna : lookupA (putA s.heap s.nextAddr F) a = some F := by
      rw [lookupA_putA, if_neg (Ne.symm hane)]
      exact hF
    have hstep : onRawGuildUpdateH s p
        = (⟨putA (putA s.heap s.nextAddr F) a { F with name := p.name },
            s.nextAddr + 1, s.byId, s.origin⟩,
           (Py.obj s.nextAddr, a)) := by
      simp only [onRawGuildUpdateH, fetch_guildH, copyH, allocH,
        place_guild_dataH, ha, hF, hsna, Option.getD_some, pyOrMissing]
    refine ⟨s.nextAddr, ?_, ?_, ?_, ?_, ?_⟩
    · rw [hstep]
    · rw [hstep]
      exact Ne.symm hane
    · rw [hstep]
    · rw [hstep, lookupA_putA, if_neg hane, lookupA_putA, if_pos rfl]
    · rw [hstep, lookupA_putA, if_pos rfl]
  · intro ha ho
    simp only [onRawGuildUpdateH, fetch_guildH, ha, ho, pyOrMissing]
  · intro F ha ho
    have h1 : lookupA (putA s.heap s.nextAddr F) s.nextAddr = some F := by
      rw [lookupA_putA, if_pos rfl]
    have h2 : lookupA (putA s.byId p.id s.nextAddr) p.id = some s.nextAddr := by
      rw [lookupA_putA, if_pos rfl]
    have h3 : lookupA (putA (putA s.heap s.nextAddr F) (s.nextAddr + 1) F)
        s.nextAddr = some F := by
      rw [lookupA_putA, if_neg (by omega)]
      exact h1
    have hstep : onRawGuildUpdateH s p
        = (⟨putA (putA (putA s.heap s.nextAddr F) (s.nextAddr + 1) F)
              s.nextAddr { F with name := p.name },
            s.nextAddr + 1 + 1, putA s.byId p.id s.nextAddr, s.origin⟩,
           (Py.obj (s.nextAddr + 1), s.nextAddr)) := by
      simp only [onRawGuildUpdateH, fetch_guildH, copyH, allocH,
        place_guild_dataH, ha, ho, h1, h2, h3, Option.getD_some, pyOrMissing]
    refine ⟨s.nextAddr + 1, ?_, ?_, ?_⟩
    · rw [hstep]
    · rw [hstep]
      simp only []
      omega
    · rw [hstep, lookupA_putA, if_neg (by omega), lookupA_putA, if_pos rfl]

/-- Closed witness for C2 at a concrete state with guild 1 cached at
address 10 holding name "Old". -/
theorem guild_update_snapshot_no_alias_witness :
    ∃ b, (onRawGuildUpdateH ⟨[(10, ⟨1, "Old"⟩)], 11, [(1, 10)], []⟩
        ⟨1, "New"⟩).2.1 = Py.obj b
      ∧ b ≠ (onRawGuildUpdateH ⟨[(10, ⟨1, "Old"⟩)], 11, [(1, 10)], []⟩
          ⟨1, "New"⟩).2.2
      ∧ (onRawGuildUpdateH ⟨[(10, ⟨1, "Old"⟩)], 11, [(1, 10)], []⟩
          ⟨1, "New"⟩).2.2 = 10
      ∧ lookupA (onRawGuildUpdateH ⟨[(10, ⟨1, "Old"⟩)], 11, [(1, 10)], []⟩
          ⟨1, "New"⟩).1.heap b = some ⟨1, "Old"⟩
      ∧ lookupA (onRawGuildUpdateH ⟨[(10, ⟨1, "Old"⟩)], 11, [(1, 10)], []⟩
          ⟨1, "New"⟩).1.heap 10 = some ⟨1, "New"⟩ :=
  (guild_update_snapshot_no_alias ⟨[(10, ⟨1, "Old"⟩)], 11, [(1, 10)], []⟩
    ⟨1, "New"⟩ (by decide)).1 10 ⟨1, "Old"⟩ rfl rfl

/-- C2 counterexample to the claim as stated: with an empty cache but the
guild available from the origin, the fetch accessor retrieves it, so the
dispatched `before` is a real record even though no previously cached
record existed — not the `MISSING` sentinel the claim requires. -/
theorem guild_update_fetch_not_missing_cx :
    lookupA (⟨[], 0, [], [(1, ⟨1, "X"⟩)]⟩ : HState).byId 1 = none
    ∧ (onRawGuildUpdateH ⟨[], 0, [], [(1, ⟨1, "X"⟩)]⟩ ⟨1, "Y"⟩).2.1 = Py.obj 1
    ∧ (onRawGuildUpdateH ⟨[], 0, [], [(1, ⟨1, "X"⟩)]⟩ ⟨1, "Y"⟩).2.1
        ≠ Py.missing := by
  refine ⟨rfl, rfl, by decide⟩

/-! ## C6: the synchronous message accessors
(`src/naff/models/discord/message.py`, `BaseMessage.channel` /
`BaseMessage.guild` / `BaseMessage.author`)

The accessors are pure functions of the cache state; the cache also carries
the external `origin` fetch layer so that "never triggers a fetch" is the
provable statement that the accessors' results do not depend on it. -/

structure MUser where
  id : Nat
  username : String
deriving DecidableEq, Repr

structure MChannel where
  id : Nat
  type : Nat
  recipients : List MUser
deriving DecidableEq, Repr

structure MGuild where
  id : Nat
  name : String
deriving DecidableEq, Repr

/-- The caches the message accessors read, plus the external origin layer
(which the synchronous accessors must never consult). -/
structure MsgCache where
  channels : List (Nat × MChannel)
  guilds : List (Nat × MGuild)
  members : List (Nat × List (Nat × MUser))
  users : List (Nat × MUser)
  origin : List (Nat × MChannel)
deriving DecidableEq, Repr

/-- `ChannelTypes.DM`. -/
def dmChannelType : Nat := 1

/-- `BaseMessage`'s relation identifier fields. -/
structure BaseMessage where
  channel_id : Nat
  guild_id : Option Nat
  author_id : Option Nat
deriving DecidableEq, Repr

/-- `BaseMessage.author`: the guild member when cached, else the cached
user, else `None`; `MISSING` when the message has no author id. -/
def BaseMessage.author (c : MsgCache) (m : BaseMessage) : Py MUser :=
  match m.author_id with
  | some aid =>
    let member : Option MUser :=
      match m.guild_id with
      | some gid =>
        (match lookupA c.members gid with
         | some sub => lookupA sub aid
         | none => none)
      | none => none
    (match member with
     | some u => Py.obj u
     | none =>
       (match lookupA c.users aid with
        | some u => Py.obj u
        | none => Py.null))
  | none => Py.missing

/-- `BaseMessage.channel`: the cached channel; on a miss with no guild id a
local DM channel object is constructed from the message's channel id (its
recipients set to the author when one resolves), without consulting the
origin; on a miss with a guild id the accessor returns `None`. -/
def BaseMessage.channel (c : MsgCache) (m : BaseMessage) : Py MChannel :=
  match lookupA c.channels m.channel_id with
  | some ch => Py.obj ch
  | none =>
    match m.guild_id with
    | some _ => Py.null
    | none =>
      let ch0 : MChannel := ⟨m.channel_id, dmChannelType, []⟩
      match BaseMessage.author c m with
      | Py.obj u => Py.obj { ch0 with recipients := [u] }
      | _ => Py.obj ch0

/-- `BaseMessage.guild`: `cache.get_guild(self._guild_id)` — `None` on a
miss or when the message has no guild id. -/
def BaseMessage.guild (c : MsgCache) (m : BaseMessage) : Py MGuild :=
  match m.guild_id with
  | some gid =>
    (match lookupA c.guilds gid with
     | some g => Py.obj g
     | none => Py.null)
  | none => Py.null

/-- C6 (amended): for a message with a guild id, a channel-cache miss
surfaces as `None` (absence, no error, no fabricated value); for a message
with no guild id, a channel-cache miss yields a locally constructed DM
channel object carrying the message's channel id; a guild-cache miss
surfaces as `None`; and none of the accessors consult the origin fetch
layer — their results are independent of it. -/
theorem message_accessors_surface_absence (c : MsgCache) (m : BaseMessage) :
    (m.guild_id ≠ none → lookupA c.channels m.channel_id = none →
      BaseMessage.channel c m = Py.null)
    ∧ (m.guild_id = none → lookupA c.channels m.channel_id = none →
      ∃ ch, BaseMessage.channel c m = Py.obj ch
        ∧ ch.id = m.channel_id ∧ ch.type = dmChannelType)
    ∧ (∀ gid, m.guild_id = some gid → lookupA c.guilds gid = none →
      BaseMessage.guild c m = Py.null)
    ∧ (∀ co : List (Nat × MChannel),
      BaseMessage.channel { c with origin := co } m = BaseMessage.channel c m
      ∧ BaseMessage.guild { c with origin := co } m = BaseMessage.guild c m) := by
  refine ⟨?_, ?_, ?_, fun co => ⟨rfl, rfl⟩⟩
  · intro hg hnone
    obtain ⟨gid, hgid⟩ := Option.ne_none_iff_exists'.mp hg
    unfold BaseMessage.channel
    rw [hnone, hgid]
  · intro hg hnone
    unfold BaseMessage.channel
    rw [hnone, hg]
    cases hau : BaseMessage.author c m with
    | obj u => exact ⟨_, rfl, rfl, rfl⟩
    | null => exact ⟨_, rfl, rfl, rfl⟩
    | missing => exact ⟨_, rfl, rfl, rfl⟩
  · intro gid hgid hnone
    unfold BaseMessage.guild
    simp only [hgid]
    rw [hnone]

/-- Closed witness for C6: uncached channel 5 of a guild message resolves
to `None`, and an uncached guild resolves to `None`. -/
theorem message_accessors_surface_absence_witness :
    BaseMessage.channel ⟨[], [], [], [], []⟩ ⟨5, some 7, none⟩ = Py.null
    ∧ BaseMessage.guild ⟨[], [], [], [], []⟩ ⟨5, some 7, none⟩ = Py.null :=
  ⟨(message_accessors_surface_absence ⟨[], [], [], [], []⟩ ⟨5, some 7, none⟩).1
      (by simp) rfl,
   (message_accessors_surface_absence ⟨[], [], [], [], []⟩ ⟨5, some 7, none⟩).2.2.1
      7 rfl rfl⟩

/-- C6 counterexample to the claim as stated: for a message with no guild
id whose channel is not cached, the accessor does not surface absence — it
fabricates a DM channel object from the message's channel id. -/
theorem message_channel_fabricates_dm_cx :
    BaseMessage.channel ⟨[], [], [], [], []⟩ ⟨5, none, none⟩
      = Py.obj ⟨5, dmChannelType, []⟩
    ∧ BaseMessage.channel ⟨[], [], [], [], []⟩ ⟨5, none, none⟩ ≠ Py.null
    ∧ BaseMessage.channel ⟨[], [], [], [], []⟩ ⟨5, none, none⟩ ≠ Py.missing
    ∧ lookupA (⟨[], [], [], [], []⟩ : MsgCache).channels 5 = none := by
  refine ⟨rfl, by decide, by decide, rfl⟩

/-! ## C7 and C10: the auto-moderation kind factories
(`src/naff/models/discord/auto_mod.py`)

Kind tags are the numeric values of `AutoModAction` / `AutoModTriggerType`
(modelled from the spec: the enum module is not under src/): actions
BLOCK_MESSAGE = 1, ALERT_MESSAGE = 2, TIMEOUT_USER = 3; triggers
KEYWORD = 1, HARMFUL_LINK = 2, KEYWORD_PRESET = 4, MENTION_SPAM = 5. -/

inductive ActionCls where
  | blockMessageCls
  | alertMessageCls
  | timeoutUserCls
deriving DecidableEq, Repr

/-- `ACTION_MAPPING`: the closed kind mapping for action payloads. -/
def ACTION_MAPPING (t : Nat) : Option ActionCls :=
  if t = 1 then some ActionCls.blockMessageCls
  else if t = 2 then some ActionCls.alertMessageCls
  else if t = 3 then some ActionCls.timeoutUserCls
  else none

/-- The constructed action records (`BlockMessage`, `AlertMessage`,
`TimeoutUser`, and fallback `BaseAction`). -/
inductive ActionRec where
  | blockMessage (type : Nat)
  | alertMessage (type : Nat) (channel_id : Nat)
  | timeoutUser (type : Nat) (duration_seconds : Nat)
  | base (type : Nat)
deriving DecidableEq, Repr

/-- A raw action payload: the kind tag plus its `metadata` dict. -/
structure ActionPayload where
  type : Nat
  metadata : List (String × Nat)
deriving DecidableEq, Repr

/-- `BaseAction.from_dict_factory`: look the kind tag up in
`ACTION_MAPPING`; on a miss, log an error (the Boolean component) and fall
back to the base class — a record is constructed either way from
`{"type": ...} | data["metadata"]`. -/
def BaseAction.from_dict_factory (d : ActionPayload) : Bool × ActionRec :=
  match ACTION_MAPPING d.type with
  | some ActionCls.blockMessageCls => (false, ActionRec.blockMessage d.type)
  | some ActionCls.alertMessageCls =>
    (false, ActionRec.alertMessage d.type ((lookupS d.metadata "channel_id").getD 0))
  | some ActionCls.timeoutUserCls =>
    (false, ActionRec.timeoutUser d.type ((lookupS d.metadata "duration_seconds").getD 60))
  | none => (true, ActionRec.base d.type)

inductive TriggerCls where
  | keywordCls
  | harmfulLinkCls
  | keywordPresetCls
  | mentionSpamCls
deriving DecidableEq, Repr

/-- `TRIGGER_MAPPING`: the closed kind mapping for trigger payloads. -/
def TRIGGER_MAPPING (t : Nat) : Option TriggerCls :=
  if t = 1 then some TriggerCls.keywordCls
  else if t = 2 then some TriggerCls.harmfulLinkCls
  else if t = 4 then some TriggerCls.keywordPresetCls
  else if t = 5 then some TriggerCls.mentionSpamCls
  else none

/-- A metadata value in a trigger payload. -/
inductive MetaVal where
  | natV (n : Nat)
  | strV (s : String)
  | natListV (l : List Nat)
  | strListV (l : List String)
deriving DecidableEq, Repr

/-- A serialized trigger dict: the kind tag under `trigger_type` and the
non-type fields folded under `trigger_metadata`. -/
structure TriggerDict where
  trigger_type : Nat
  trigger_metadata : List (String × MetaVal)
deriving DecidableEq, Repr

/-- The trigger records: `KeywordTrigger`, `HarmfulLinkFilter`,
`KeywordPresetTrigger`, `MentionSpamTrigger`, and fallback `BaseTrigger`.
Each carries its `type` field (an attrs field whose default is the
canonical tag but which a constructor call may override). -/
inductive TriggerRec where
  | keyword (type : Nat) (keyword_filter : List String)
  | harmfulLink (type : Nat)
  | keywordPreset (type : Nat) (keyword_lists : List Nat)
  | mentionSpam (type : Nat) (mention_total_limit : Nat)
  | base (type : Nat)
deriving DecidableEq, Repr

/-- `_keyword_converter`: a bare string becomes a one-element list. -/
def keywordConverter : MetaVal → List String
  | MetaVal.strV s => [s]
  | MetaVal.strListV l => l
  | _ => []

def getKeywordFilter (meta : List (String × MetaVal)) : List String :=
  match lookupS meta "keyword_filter" with
  | some v => keywordConverter v
  | none => []

def getKeywordLists (meta : List (String × MetaVal)) : List Nat :=
  match lookupS meta "keyword_lists" with
  | some (MetaVal.natListV l) => l
  | _ => []

def getMentionLimit (meta : List (String × MetaVal)) : Nat :=
  match lookupS meta "mention_total_limit" with
  | some (MetaVal.natV n) => n
  | _ => 3

/-- `BaseTrigger.from_dict_factory` composed with `from_dict` /
`BaseTrigger._process_dict`: look the kind tag up in `TRIGGER_MAPPING`
(falling back to the base class with an error logged — the Boolean
component), build the payload `{"type": tag, "trigger_metadata": meta}`,
fold the metadata into the field dict and construct the class, applying
the attrs converters and field defaults. -/
def BaseTrigger.from_dict_factory (d : TriggerDict) : Bool × TriggerRec :=
  match TRIGGER_MAPPING d.trigger_type with
  | some TriggerCls.keywordCls =>
    (false, TriggerRec.keyword d.trigger_type (getKeywordFilter d.trigger_metadata))
  | some TriggerCls.harmfulLinkCls =>
    (false, TriggerRec.harmfulLink d.trigger_type)
  | some TriggerCls.keywordPresetCls =>
    (false, TriggerRec.keywordPreset d.trigger_type (getKeywordLists d.trigger_metadata))
  | some TriggerCls.mentionSpamCls =>
    (false, TriggerRec.mentionSpam d.trigger_type (getMentionLimit d.trigger_metadata))
  | none => (true, TriggerRec.base d.trigger_type)

/-- `BaseTrigger.as_dict`: `attrs.asdict`, then all non-type fields are
folded under `trigger_metadata` and the type tag is moved under
`trigger_type`. -/
def TriggerRec.as_dict : TriggerRec → TriggerDict
  | TriggerRec.keyword t kf => ⟨t, [("keyword_filter", MetaVal.strListV kf)]⟩
  | TriggerRec.harmfulLink t => ⟨t, []⟩
  | TriggerRec.keywordPreset t kl => ⟨t, [("keyword_lists", MetaVal.natListV kl)]⟩
  | TriggerRec.mentionSpam t ml => ⟨t, [("mention_total_limit", MetaVal.natV ml)]⟩
  | TriggerRec.base t => ⟨t, []⟩

/-- The `type` field of a trigger record. -/
def TriggerRec.typeTag : TriggerRec → Nat
  | TriggerRec.keyword t _ => t
  | TriggerRec.harmfulLink t => t
  | TriggerRec.keywordPreset t _ => t
  | TriggerRec.mentionSpam t _ => t
  | TriggerRec.base t => t

/-- A trigger whose `type` field is the canonical tag of its class — what
every construction through the class defaults or the factory produces. -/
def TriggerRec.wellFormed : TriggerRec → Prop
  | TriggerRec.keyword t _ => t = 1
  | TriggerRec.harmfulLink t => t = 2
  | TriggerRec.keywordPreset t _ => t = 4
  | TriggerRec.mentionSpam t _ => t = 5
  | TriggerRec.base t => TRIGGER_MAPPING t = none

/-- C7 (amended): a payload whose kind tag has no entry in the closed kind
mapping is logged, but the update is not dropped — the factory falls back
to the base class and still constructs a record from the payload.  This
holds for both the action factory and the trigger factory. -/
theorem unknown_kind_logged_constructs_fallback :
    (∀ d : ActionPayload, ACTION_MAPPING d.type = none →
      BaseAction.from_dict_factory d = (true, ActionRec.base d.type))
    ∧ (∀ d : TriggerDict, TRIGGER_MAPPING d.trigger_type = none →
      BaseTrigger.from_dict_factory d = (true, TriggerRec.base d.trigger_type)) := by
  constructor
  · intro d h
    unfold BaseAction.from_dict_factory
    rw [h]
  · intro d h
    unfold BaseTrigger.from_dict_factory
    rw [h]

/-- Closed witness for C7 at the unknown action tag 99. -/
theorem unknown_kind_logged_constructs_fallback_witness :
    BaseAction.from_dict_factory ⟨99, []⟩ = (true, ActionRec.base 99) :=
  unknown_kind_logged_constructs_fallback.1 ⟨99, []⟩ rfl

/-- C7 counterexample to the claim as stated: for the unknown action tag 99
(and unknown trigger tag 99) the factory does construct a record — a
base-class fallback — rather than dropping the update. -/
theorem unknown_kind_constructs_record_cx :
    (BaseAction.from_dict_factory ⟨99, [("channel_id", 3)]⟩).2 = ActionRec.base 99
    ∧ (BaseAction.from_dict_factory ⟨99, [("channel_id", 3)]⟩).1 = true
    ∧ (BaseTrigger.from_dict_factory ⟨99, []⟩).2 = TriggerRec.base 99 := by
  refine ⟨rfl, rfl, rfl⟩

/-- C10 (amended): for every trigger whose `type` field is the canonical
tag of its class, serialization and deserialization round-trip:
`as_dict` folds the non-type fields under `trigger_metadata` with the kind
tag under `trigger_type`, and `from_dict_factory` applied to that dict
reconstructs the same record. -/
theorem trigger_roundtrip (t : TriggerRec) (h : t.wellFormed) :
    (BaseTrigger.from_dict_factory t.as_dict).2 = t
    ∧ t.as_dict.trigger_type = t.typeTag := by
  cases t with
  | keyword tag kf =>
    rw [show tag = 1 from h]
    exact ⟨rfl, rfl⟩
  | harmfulLink tag =>
    rw [show tag = 2 from h]
    exact ⟨rfl, rfl⟩
  | keywordPreset tag kl =>
    rw [show tag = 4 from h]
    exact ⟨rfl, rfl⟩
  | mentionSpam tag ml =>
    rw [show tag = 5 from h]
    exact ⟨rfl, rfl⟩
  | base tag =>
    refine ⟨?_, rfl⟩
    unfold BaseTrigger.from_dict_factory TriggerRec.as_dict
    rw [show TRIGGER_MAPPING tag = none from h]

/-- Closed witness for C10 at a concrete keyword trigger. -/
theorem trigger_roundtrip_witness :
    (BaseTrigger.from_dict_factory (TriggerRec.keyword 1 ["bad"]).as_dict).2
      = TriggerRec.keyword 1 ["bad"] :=
  (trigger_roundtrip (TriggerRec.keyword 1 ["bad"]) rfl).1

/-- C10 counterexample to the claim as stated: a `KeywordTrigger`
constructed with the `MENTION_SPAM` type tag (attrs allows overriding the
`type` field) does not round-trip — deserialization follows the tag and
rebuilds a `MentionSpamTrigger` with different fields. -/
theorem trigger_roundtrip_cx :
    (BaseTrigger.from_dict_factory (TriggerRec.keyword 5 ["bad"]).as_dict).2
      = TriggerRec.mentionSpam 5 3
    ∧ (BaseTrigger.from_dict_factory (TriggerRec.keyword 5 ["bad"]).as_dict).2
        ≠ TriggerRec.keyword 5 ["bad"] := by
  refine ⟨rfl, by decide⟩

end Spec2Proof
